import Mathlib

/-! A shallow embedding of the PMREM (Prefiltered Mipmapped Radiance
Environment Map) generator found in
`src/three-components/NewPMREMGenerator.ts`, together with theorems that
check the specification's claims about it.

Real-valued quantities of the source (sigma, roughness, blur weights) are
modelled over `ℝ`; integer quantities (LOD sizes, atlas offsets, sample
counts) over `ℕ`/`ℤ`.  Line numbers in doc comments refer to the source
file. -/

noncomputable section

namespace PMREM

/-- Constant `LOD_MIN = 3` (line 21). -/
def LOD_MIN : ℕ := 3

/-- Constant `LOD_MAX = 8` (line 22). -/
def LOD_MAX : ℕ := 8

/-- Constant `SIZE_MAX = Math.pow(2, LOD_MAX)` (line 23). -/
def SIZE_MAX : ℕ := 2 ^ LOD_MAX

/-- Constant `EXTRA_LOD_ROUGHNESS = [0.5, 0.7, 1.0]` (line 24). -/
def EXTRA_LOD_ROUGHNESS : List ℝ := [0.5, 0.7, 1.0]

/-- Constant `TOTAL_LODS = LOD_MAX - LOD_MIN + 1 + EXTRA_LOD_ROUGHNESS.length`
(line 25). -/
def TOTAL_LODS : ℕ := LOD_MAX - LOD_MIN + 1 + EXTRA_LOD_ROUGHNESS.length

/-- Constant `MAX_SAMPLES = 20` (line 26). -/
def MAX_SAMPLES : ℕ := 20

/-- The running `lod` counter at the start of iteration `i` of the
constructor loop: it is initialized to `LOD_MAX` (line 58) and, at the end
of each iteration, decremented while it is still above `LOD_MIN`
(lines 99-101). -/
def lodAt : ℕ → ℕ
  | 0 => LOD_MAX
  | i + 1 => if LOD_MIN < lodAt i then lodAt i - 1 else lodAt i

/-- `sizeLod = Math.pow(2, lod)`, pushed onto `this[$lodSize]` at iteration
`i` (lines 60-61). -/
def lodSize (i : ℕ) : ℕ := 2 ^ lodAt i

/-- The index expression `i - LOD_MAX + LOD_MIN - 1` of line 66, evaluated
left to right over the integers as in JavaScript, then used as a list
index. -/
def extraIndex (i : ℕ) : ℕ := ((i : ℤ) - (LOD_MAX : ℤ) + (LOD_MIN : ℤ) - 1).toNat

/-- The roughness recorded for LOD index `i` (lines 63-66): the closed-form
inverse relation, overridden by an `EXTRA_LOD_ROUGHNESS` entry when
`i > LOD_MAX - LOD_MIN`. -/
def roughness (i : ℕ) : ℝ :=
  if LOD_MAX - LOD_MIN < i then EXTRA_LOD_ROUGHNESS.getD (extraIndex i) 0
  else (1 + Real.sqrt (1 + 4 * Real.pi * (lodSize i : ℝ))) /
    (2 * Real.pi * (lodSize i : ℝ))

/-- The sigma recorded for LOD index `i` (lines 62, 67): `1 / sizeLod`,
overridden by `π·r²/(1+r)` on the extra levels. -/
def sigma (i : ℕ) : ℝ :=
  if LOD_MAX - LOD_MIN < i then
    Real.pi * roughness i * roughness i / (1 + roughness i)
  else 1.0 / (lodSize i : ℝ)

/-- The quad column for cube face `face`: `const x = (face % 3)` (line 83). -/
def planeX (face : ℕ) : ℕ := face % 3

/-- The quad row for LOD index `i`: `const y = i > 2 ? 1 : 0` (line 84). -/
def planeRow (i : ℕ) : ℕ := if 2 < i then 1 else 0

/-- The six 2-D vertex positions of the quad built for LOD index `i` and
cube face `face` (lines 85-86):
`[x, y, x+1, y, x+1, y+1, x, y, x+1, y+1, x, y+1]`. -/
def planePositions (i face : ℕ) : List (ℕ × ℕ) :=
  [(planeX face, planeRow i), (planeX face + 1, planeRow i),
   (planeX face + 1, planeRow i + 1), (planeX face, planeRow i),
   (planeX face + 1, planeRow i + 1), (planeX face, planeRow i + 1)]

/-- The metadata of an input equirectangular texture that the generator
reads (lines 115-123); field values are abstract. -/
structure Texture where
  format : ℕ
  type : ℕ
  anisotropy : ℕ
  encoding : ℕ

/-- A three.js texture filter; the generator only ever selects
`NearestFilter`. -/
inductive TexFilter
  | nearest
  | linear
deriving DecidableEq

/-- The parameter record passed to the `WebGLRenderTarget` constructor
(lines 115-123). -/
structure TargetParams where
  format : ℕ
  magFilter : TexFilter
  minFilter : TexFilter
  type : ℕ
  generateMipmaps : Bool
  anisotropy : ℕ
  encoding : ℕ
deriving DecidableEq

/-- A render target as allocated by the generator: its pixel dimensions and
its construction parameters (lines 124-125). -/
structure RenderTarget where
  width : ℕ
  height : ℕ
  params : TargetParams
deriving DecidableEq

/-- The allocation performed by `$equirectangularToCubeUV` (lines 113-126):
a `3*SIZE_MAX` by `3*SIZE_MAX` target whose params copy the input's format,
type, anisotropy and encoding, select nearest filtering for both filters,
and disable mipmap generation. -/
def equirectangularToCubeUVTarget (t : Texture) : RenderTarget :=
  { width := 3 * SIZE_MAX
    height := 3 * SIZE_MAX
    params :=
      { format := t.format
        magFilter := TexFilter.nearest
        minFilter := TexFilter.nearest
        type := t.type
        generateMipmaps := false
        anisotropy := t.anisotropy
        encoding := t.encoding } }

/-- One invocation of `this[$gaussianBlur]` as issued by `$applyPMREM`:
source LOD, destination LOD, and the incremental standard deviation. -/
structure BlurCall where
  lodIn : ℕ
  lodOut : ℕ
  stddev : ℝ

/-- The sequence of blur invocations issued by `$applyPMREM`
(lines 145-151): for `i = 1` to `TOTAL_LODS - 1`, blur LOD `i-1` into LOD
`i` with standard deviation `sqrt(sigma[i]*sigma[i] - sigma[i-1]*sigma[i-1])`.
The list entry at position `j` corresponds to loop iteration `i = j + 1`. -/
def applyPMREMCalls : List BlurCall :=
  (List.range (TOTAL_LODS - 1)).map fun j =>
    { lodIn := j
      lodOut := j + 1
      stddev := Real.sqrt (sigma (j + 1) * sigma (j + 1) - sigma j * sigma j) }

/-- `equirectangularToPMREM` (lines 107-111) allocates the cube-UV target
and then runs `$applyPMREM` on it; the returned target is the one
allocated by `$equirectangularToCubeUV`, and the trace of blur invocations
is `applyPMREMCalls`. -/
def equirectangularToPMREM (t : Texture) : RenderTarget × List BlurCall :=
  (equirectangularToCubeUVTarget t, applyPMREMCalls)

/-- `const standardDeviations = 3` (line 165). -/
def standardDeviations : ℝ := 3

/-- The derived sample count (lines 166-168):
`n = Math.ceil(standardDeviations * standardDeviationRadians * inputSize * 2 / Math.PI)`. -/
def blurSampleCount (standardDeviationRadians : ℝ) (inputSize : ℕ) : ℤ :=
  ⌈standardDeviations * standardDeviationRadians * (inputSize : ℝ) * 2 / Real.pi⌉

/-- The diagnostic emitted on lines 169-177: `some (requested, permitted)`
exactly when `n > MAX_SAMPLES`, otherwise nothing. -/
def blurDiagnostic (n : ℤ) : Option (ℤ × ℤ) :=
  if (MAX_SAMPLES : ℤ) < n then some (n, (MAX_SAMPLES : ℤ)) else none

/-- `inverseIntegral = standardDeviations / ((n - 1) * Math.sqrt(2 * Math.PI))`
(lines 178-179). -/
def inverseIntegral (n : ℕ) : ℝ :=
  standardDeviations / (((n : ℝ) - 1) * Real.sqrt (2 * Real.pi))

/-- The Gaussian weight computed for loop index `i` (lines 181-184):
`x = standardDeviations * i / (n - 1)` and the pushed value
`inverseIntegral * Math.exp(-x * x / 2)`. -/
def weight (n : ℕ) (i : ℕ) : ℝ :=
  inverseIntegral n *
    Real.exp (-(standardDeviations * (i : ℝ) / ((n : ℝ) - 1)) *
      (standardDeviations * (i : ℝ) / ((n : ℝ) - 1)) / 2)

/-- The weight array built by the loop on lines 180-184: always exactly
`MAX_SAMPLES` entries, regardless of the requested sample count. -/
def weightsList (n : ℕ) : List ℝ := (List.range MAX_SAMPLES).map (weight n)

/-- The set of loop indices the fragment shader actually executes
(lines 279-281): `i` ranges below the compile-time bound `n = MAX_SAMPLES`
and the loop breaks as soon as `i >= samples`. -/
def shaderSampleIndices (samples : ℕ) : Finset ℕ :=
  (Finset.range MAX_SAMPLES).filter fun i => i < samples

/-- The weight mass accumulated over the full requested sample range, both
symmetric directions, center counted once: `2 * Σ_{i<n} w_i - w_0`
(the quantity the spec asserts is approximately 1). -/
def weightSum (n : ℕ) : ℝ :=
  2 * ∑ i in Finset.range n, weight n i - weight n 0

/-- The weight mass actually accumulated by the shader loop, both symmetric
directions, center counted once (lines 279-299). -/
def usedWeightSum (samples : ℕ) : ℝ :=
  2 * ∑ i in shaderSampleIndices samples, weight samples i - weight samples 0

/-- Atlas viewport x-offset computed by `$gaussianBlur` (line 201):
`x = 3 * Math.max(0, SIZE_MAX - 2 * outputSize)`. -/
def viewportX (lodOut : ℕ) : ℤ :=
  3 * max 0 ((SIZE_MAX : ℤ) - 2 * (lodSize lodOut : ℤ))

/-- Atlas viewport y-offset computed by `$gaussianBlur` (lines 202-204):
`y = (lodOut === 0 ? 0 : SIZE_MAX) + outputSize * (lodOut > LOD_MAX - LOD_MIN ? lodOut - LOD_MAX + LOD_MIN : 0)`. -/
def viewportY (lodOut : ℕ) : ℤ :=
  (if lodOut = 0 then 0 else (SIZE_MAX : ℤ)) +
    (lodSize lodOut : ℤ) *
      (if LOD_MAX - LOD_MIN < lodOut then
        (lodOut : ℤ) - (LOD_MAX : ℤ) + (LOD_MIN : ℤ) else 0)

/-- Atlas viewport width (line 205): `3 * outputSize`. -/
def viewportW (lodOut : ℕ) : ℤ := 3 * (lodSize lodOut : ℤ)

/-- Atlas viewport height (line 205): `2 * outputSize`. -/
def viewportH (lodOut : ℕ) : ℤ := 2 * (lodSize lodOut : ℤ)

/-- The y-offset formula exactly as the specification words it: the second
summand multiplies `outputSize` by `lodOut - (LOD_MAX - LOD_MIN)` when
`lodOut` is past the halving range. -/
def specViewportY (lodOut : ℕ) : ℤ :=
  (if lodOut = 0 then 0 else (SIZE_MAX : ℤ)) +
    (lodSize lodOut : ℤ) *
      (if LOD_MAX - LOD_MIN < lodOut then
        (lodOut : ℤ) - ((LOD_MAX - LOD_MIN : ℕ) : ℤ) else 0)

/-- Closed form for the `lod` counter: it falls from `LOD_MAX` by one per
iteration until it reaches `LOD_MIN` and stays there. -/
theorem lodAt_eq (i : ℕ) : lodAt i = max (LOD_MAX - i) LOD_MIN := by
  induction i with
  | zero => simp [lodAt, LOD_MAX, LOD_MIN]
  | succ k ih =>
    rw [lodAt, ih]
    simp only [LOD_MAX, LOD_MIN]
    split <;> omega

/-- `TOTAL_LODS` evaluates to 9. -/
theorem TOTAL_LODS_eq : TOTAL_LODS = 9 := rfl

/-- The sigma of LOD 0. -/
theorem sigma_0 : sigma 0 = 1 / 256 := by
  rw [sigma, if_neg (by decide), show lodSize 0 = 256 from by decide]
  norm_num

/-- The sigma of LOD 1. -/
theorem sigma_1 : sigma 1 = 1 / 128 := by
  rw [sigma, if_neg (by decide), show lodSize 1 = 128 from by decide]
  norm_num

/-- The sigma of LOD 2. -/
theorem sigma_2 : sigma 2 = 1 / 64 := by
  rw [sigma, if_neg (by decide), show lodSize 2 = 64 from by decide]
  norm_num

/-- The sigma of LOD 3. -/
theorem sigma_3 : sigma 3 = 1 / 32 := by
  rw [sigma, if_neg (by decide), show lodSize 3 = 32 from by decide]
  norm_num

/-- The sigma of LOD 4. -/
theorem sigma_4 : sigma 4 = 1 / 16 := by
  rw [sigma, if_neg (by decide), show lodSize 4 = 16 from by decide]
  norm_num

/-- The sigma of LOD 5. -/
theorem sigma_5 : sigma 5 = 1 / 8 := by
  rw [sigma, if_neg (by decide), show lodSize 5 = 8 from by decide]
  norm_num

/-- The roughness of LOD 6 is the first extra entry. -/
theorem roughness_6 : roughness 6 = 0.5 := by
  rw [roughness, if_pos (by decide), show extraIndex 6 = 0 from by decide]
  rfl

/-- The roughness of LOD 7 is the second extra entry. -/
theorem roughness_7 : roughness 7 = 0.7 := by
  rw [roughness, if_pos (by decide), show extraIndex 7 = 1 from by decide]
  rfl

/-- The roughness of LOD 8 is the third extra entry. -/
theorem roughness_8 : roughness 8 = 1.0 := by
  rw [roughness, if_pos (by decide), show extraIndex 8 = 2 from by decide]
  rfl

/-- The sigma of LOD 6. -/
theorem sigma_6 : sigma 6 = Real.pi / 6 := by
  rw [sigma, if_pos (by decide), roughness_6]
  rw [show (0.5 : ℝ) = 1 / 2 from by norm_num]
  ring

/-- The sigma of LOD 7. -/
theorem sigma_7 : sigma 7 = 49 * Real.pi / 170 := by
  rw [sigma, if_pos (by decide), roughness_7]
  rw [show (0.7 : ℝ) = 7 / 10 from by norm_num]
  rw [show (1 : ℝ) + 7 / 10 = 17 / 10 from by norm_num]
  field_simp
  ring

/-- The sigma of LOD 8. -/
theorem sigma_8 : sigma 8 = Real.pi / 2 := by
  rw [sigma, if_pos (by decide), roughness_8]
  norm_num

/-- C1: for every LOD index `i ≤ LOD_MAX - LOD_MIN` the recorded resolution
`lodSize i` equals `2^(LOD_MAX - i)`, and for every index beyond, up to
`TOTAL_LODS - 1`, it equals `2^LOD_MIN`; equivalently the resolution
strictly halves each step down to `2^LOD_MIN` and then stays constant. -/
theorem lodSize_resolution (i : ℕ) :
    (i ≤ LOD_MAX - LOD_MIN → lodSize i = 2 ^ (LOD_MAX - i)) ∧
    (LOD_MAX - LOD_MIN < i → i ≤ TOTAL_LODS - 1 → lodSize i = 2 ^ LOD_MIN) ∧
    (i < LOD_MAX - LOD_MIN → lodSize (i + 1) * 2 = lodSize i) ∧
    (LOD_MAX - LOD_MIN ≤ i → i < TOTAL_LODS - 1 → lodSize (i + 1) = lodSize i) := by
  refine ⟨fun h => ?_, fun h1 h2 => ?_, fun h => ?_, fun h1 h2 => ?_⟩
  · rw [lodSize, lodAt_eq]
    congr 1
    simp only [LOD_MAX, LOD_MIN] at *
    omega
  · rw [lodSize, lodAt_eq]
    congr 1
    simp only [LOD_MAX, LOD_MIN] at *
    omega
  · simp only [LOD_MAX, LOD_MIN] at h
    rw [lodSize, lodSize, lodAt_eq, lodAt_eq]
    rw [show max (LOD_MAX - (i + 1)) LOD_MIN = 7 - i from by
        simp only [LOD_MAX, LOD_MIN]; omega,
      show max (LOD_MAX - i) LOD_MIN = 8 - i from by
        simp only [LOD_MAX, LOD_MIN]; omega,
      ← pow_succ]
    congr 1
    omega
  · rw [lodSize, lodSize, lodAt_eq, lodAt_eq]
    congr 1
    rw [TOTAL_LODS_eq] at h2
    simp only [LOD_MAX, LOD_MIN] at *
    omega

/-- Witness for C1: concrete evaluations in both ranges. -/
theorem lodSize_resolution_witness :
    (2 ≤ LOD_MAX - LOD_MIN ∧ lodSize 2 = 2 ^ (LOD_MAX - 2)) ∧
    (LOD_MAX - LOD_MIN < 7 ∧ 7 ≤ TOTAL_LODS - 1 ∧ lodSize 7 = 2 ^ LOD_MIN) :=
  ⟨⟨by decide, (lodSize_resolution 2).1 (by decide)⟩,
   ⟨by decide, by decide, (lodSize_resolution 7).2.1 (by decide) (by decide)⟩⟩

/-- C2: in the halving range the planner records the closed-form roughness
and `sigma = 1/size`; on the extra levels it takes the roughness from
`EXTRA_LOD_ROUGHNESS` at entry `i - (LOD_MAX - LOD_MIN) - 1` and recomputes
`sigma = π·r²/(1+r)`. -/
theorem roughness_sigma_formulas (i : ℕ) :
    (i ≤ LOD_MAX - LOD_MIN →
      roughness i = (1 + Real.sqrt (1 + 4 * Real.pi * (lodSize i : ℝ))) /
          (2 * Real.pi * (lodSize i : ℝ)) ∧
      sigma i = 1 / (lodSize i : ℝ)) ∧
    (LOD_MAX - LOD_MIN < i →
      roughness i = EXTRA_LOD_ROUGHNESS.getD (i - (LOD_MAX - LOD_MIN) - 1) 0 ∧
      sigma i = Real.pi * roughness i * roughness i / (1 + roughness i)) := by
  constructor
  · intro h
    rw [roughness, if_neg (by omega), sigma, if_neg (by omega)]
    exact ⟨rfl, by norm_num⟩
  · intro h1
    rw [sigma, if_pos h1]
    refine ⟨?_, rfl⟩
    rw [roughness, if_pos h1]
    congr 1
    simp only [extraIndex, LOD_MAX, LOD_MIN] at *
    omega

/-- Witness for C2: concrete instances in both ranges. -/
theorem roughness_sigma_formulas_witness :
    (3 ≤ LOD_MAX - LOD_MIN ∧ sigma 3 = 1 / (lodSize 3 : ℝ)) ∧
    (LOD_MAX - LOD_MIN < 7 ∧
      roughness 7 = EXTRA_LOD_ROUGHNESS.getD (7 - (LOD_MAX - LOD_MIN) - 1) 0) :=
  ⟨⟨by decide, ((roughness_sigma_formulas 3).1 (by decide)).2⟩,
   ⟨by decide, ((roughness_sigma_formulas 7).2 (by decide)).1⟩⟩

/-- C3: the sigma sequence recorded by the planner is non-decreasing over
the whole LOD index range, including the transition from the
resolution-derived formula to the fixed extra-roughness levels. -/
theorem sigma_monotone (i : ℕ) (h : i + 1 ≤ TOTAL_LODS - 1) :
    sigma i ≤ sigma (i + 1) := by
  rw [TOTAL_LODS_eq] at h
  have h7 : i ≤ 7 := by omega
  have hpi := Real.pi_gt_three
  interval_cases i
  · rw [sigma_0, sigma_1]; norm_num
  · rw [sigma_1, sigma_2]; norm_num
  · rw [sigma_2, sigma_3]; norm_num
  · rw [sigma_3, sigma_4]; norm_num
  · rw [sigma_4, sigma_5]; norm_num
  · rw [sigma_5, sigma_6]; linarith
  · rw [sigma_6, sigma_7]; nlinarith
  · rw [sigma_7, sigma_8]; nlinarith

/-- Witness for C3: the transition step from the halving range into the
extra levels. -/
theorem sigma_monotone_witness : 5 + 1 ≤ TOTAL_LODS - 1 ∧ sigma 5 ≤ sigma 6 :=
  ⟨by decide, sigma_monotone 5 (by decide)⟩

/-- C4: the blur loop of `$applyPMREM` runs over destination LOD indices 1
to `TOTAL_LODS - 1` (LOD 0 is never a destination), blurring LOD `i-1` into
LOD `i` with incremental standard deviation
`sqrt(sigma[i]^2 - sigma[i-1]^2)`. -/
theorem applyPMREM_blur_loop :
    applyPMREMCalls.length = TOTAL_LODS - 1 ∧
    (∀ c ∈ applyPMREMCalls,
      1 ≤ c.lodOut ∧ c.lodOut ≤ TOTAL_LODS - 1 ∧ c.lodOut ≠ 0 ∧
      c.lodIn = c.lodOut - 1 ∧
      c.stddev = Real.sqrt (sigma c.lodOut ^ 2 - sigma (c.lodOut - 1) ^ 2)) ∧
    (∀ j, 1 ≤ j → j ≤ TOTAL_LODS - 1 → ∃ c ∈ applyPMREMCalls, c.lodOut = j) := by
  refine ⟨by simp [applyPMREMCalls], ?_, ?_⟩
  · intro c hc
    simp only [applyPMREMCalls, List.mem_map, List.mem_range] at hc
    obtain ⟨j, hj, rfl⟩ := hc
    rw [TOTAL_LODS_eq] at hj ⊢
    refine ⟨show 1 ≤ j + 1 from by omega, show j + 1 ≤ 9 - 1 from by omega,
      show j + 1 ≠ 0 from by omega, rfl, ?_⟩
    show Real.sqrt (sigma (j + 1) * sigma (j + 1) - sigma j * sigma j) =
      Real.sqrt (sigma (j + 1) ^ 2 - sigma (j + 1 - 1) ^ 2)
    rw [Nat.add_sub_cancel]
    congr 1
    ring
  · intro j h1 h2
    rw [TOTAL_LODS_eq] at h2
    refine ⟨_, List.mem_map_of_mem _
      (List.mem_range.mpr (show j - 1 < TOTAL_LODS - 1 from by
        rw [TOTAL_LODS_eq]; omega)), ?_⟩
    show j - 1 + 1 = j
    omega

/-- Witness for C4: destination LOD 1 occurs, and the call list has the
documented length. -/
theorem applyPMREM_blur_loop_witness :
    (∃ c ∈ applyPMREMCalls, c.lodOut = 1) ∧
    applyPMREMCalls.length = TOTAL_LODS - 1 :=
  ⟨applyPMREM_blur_loop.2.2 1 (by decide) (by decide), applyPMREM_blur_loop.1⟩

/-- C5: the blur's viewport offsets follow the documented atlas layout
formulas (the y-offset matches the spec's
`outputSize * (lodOut - (LOD_MAX-LOD_MIN))` form), the extent is
`3*outputSize` by `2*outputSize`, and the formulas yield the documented
values at concrete indices spanning both ranges. -/
theorem gaussianBlur_viewport (lodOut : ℕ) :
    viewportX lodOut = 3 * max 0 ((SIZE_MAX : ℤ) - 2 * (lodSize lodOut : ℤ)) ∧
    viewportY lodOut = specViewportY lodOut ∧
    viewportW lodOut = 3 * (lodSize lodOut : ℤ) ∧
    viewportH lodOut = 2 * (lodSize lodOut : ℤ) ∧
    (viewportX 0 = 0 ∧ viewportY 0 = 0) ∧
    (viewportX 3 = 576 ∧ viewportY 3 = 256) ∧
    (viewportX 6 = 720 ∧ viewportY 6 = 264) ∧
    (viewportX 8 = 720 ∧ viewportY 8 = 280) := by
  refine ⟨rfl, ?_, rfl, rfl, by decide, by decide, by decide, by decide⟩
  unfold viewportY specViewportY
  rcases Nat.lt_or_ge (LOD_MAX - LOD_MIN) lodOut with h | h
  · rw [if_pos h, if_pos h]
    simp only [LOD_MAX, LOD_MIN]
    push_cast
    ring
  · rw [if_neg (not_lt.mpr h), if_neg (not_lt.mpr h)]

/-- C8: `equirectangularToPMREM` allocates its output atlas target sized
`3*SIZE_MAX` square, preserving the input texture's format, type,
anisotropy and encoding, with nearest filtering for both filters and
mipmap generation disabled. -/
theorem pmrem_target_allocation (t : Texture) :
    (equirectangularToPMREM t).1 = equirectangularToCubeUVTarget t ∧
    (equirectangularToPMREM t).1.width = 3 * SIZE_MAX ∧
    (equirectangularToPMREM t).1.height = 3 * SIZE_MAX ∧
    (equirectangularToPMREM t).1.params.format = t.format ∧
    (equirectangularToPMREM t).1.params.type = t.type ∧
    (equirectangularToPMREM t).1.params.anisotropy = t.anisotropy ∧
    (equirectangularToPMREM t).1.params.encoding = t.encoding ∧
    (equirectangularToPMREM t).1.params.magFilter = TexFilter.nearest ∧
    (equirectangularToPMREM t).1.params.minFilter = TexFilter.nearest ∧
    (equirectangularToPMREM t).1.params.generateMipmaps = false :=
  ⟨rfl, rfl, rfl, rfl, rfl, rfl, rfl, rfl, rfl, rfl⟩

/-- C9: the quad grid row is chosen from the LOD index alone (row 1 exactly
when `i > 2`), so within one LOD the position rectangles of face `f` and
face `f+3` coincide and the six face quads occupy only three distinct unit
grid cells. -/
theorem lod_plane_cells (i : ℕ) :
    (2 < i → planeRow i = 1) ∧ (i ≤ 2 → planeRow i = 0) ∧
    (∀ f, f < 3 → planePositions i f = planePositions i (f + 3)) ∧
    ((Finset.range 6).image fun f => (planeX f, planeRow i)).card = 3 := by
  refine ⟨fun h => by rw [planeRow, if_pos h],
    fun h => by rw [planeRow, if_neg (by omega)], ?_, ?_⟩
  · intro f hf
    interval_cases f <;> rfl
  · rcases Nat.lt_or_ge 2 i with h | h
    · have hrow : planeRow i = 1 := by rw [planeRow, if_pos h]
      simp only [hrow]
      decide
    · have hrow : planeRow i = 0 := by rw [planeRow, if_neg (not_lt.mpr h)]
      simp only [hrow]
      decide

/-- Witness for C9: concrete row choice and face-coincidence instances. -/
theorem lod_plane_cells_witness :
    (2 < 4 ∧ planeRow 4 = 1) ∧ (1 ≤ 2 ∧ planeRow 1 = 0) ∧
    (1 < 3 ∧ planePositions 5 1 = planePositions 5 (1 + 3)) :=
  ⟨⟨by decide, (lod_plane_cells 4).1 (by decide)⟩,
   ⟨by decide, (lod_plane_cells 1).2.1 (by decide)⟩,
   ⟨by decide, (lod_plane_cells 5).2.2.1 1 (by decide)⟩⟩

/-- A rational lower bound certificate for a square root. -/
theorem sqrt_lower (q c : ℝ) (hc : 0 ≤ c) (h : c ^ 2 ≤ q) : c ≤ Real.sqrt q := by
  have h2 := Real.sqrt_le_sqrt h
  rwa [Real.sqrt_sq hc] at h2

/-- A rational upper bound certificate for a square root. -/
theorem sqrt_upper (q c : ℝ) (hc : 0 ≤ c) (h : q ≤ c ^ 2) : Real.sqrt q ≤ c := by
  have h2 := Real.sqrt_le_sqrt h
  rwa [Real.sqrt_sq hc] at h2

/-- If the pre-ceiling quantity `3·σ·size·2` lies in `[3.15, 62.8]`, then
the derived sample count lies in `[2, MAX_SAMPLES]`, the diagnostic branch
is not taken, and the divisor `n - 1` is nonzero. -/
theorem blurSampleCount_range (σ : ℝ) (size : ℕ)
    (h1 : 3.15 ≤ 3 * σ * (size : ℝ) * 2) (h2 : 3 * σ * (size : ℝ) * 2 ≤ 62.8) :
    2 ≤ blurSampleCount σ size ∧ blurSampleCount σ size ≤ (MAX_SAMPLES : ℤ) ∧
    blurDiagnostic (blurSampleCount σ size) = none ∧
    ((blurSampleCount σ size : ℝ) - 1) ≠ 0 := by
  have hge : 2 ≤ blurSampleCount σ size := by
    rw [blurSampleCount]
    have hx : ((1 : ℤ) : ℝ) < standardDeviations * σ * (size : ℝ) * 2 / Real.pi := by
      rw [standardDeviations, lt_div_iff Real.pi_pos]
      have := Real.pi_lt_315
      push_cast
      linarith
    have hc := Int.lt_ceil.mpr hx
    omega
  have hle : blurSampleCount σ size ≤ (MAX_SAMPLES : ℤ) := by
    rw [blurSampleCount]
    apply Int.ceil_le.mpr
    rw [standardDeviations, div_le_iff Real.pi_pos]
    have := Real.pi_gt_3141592
    push_cast [MAX_SAMPLES]
    linarith
  refine ⟨hge, hle, ?_, ?_⟩
  · rw [blurDiagnostic, if_neg (by omega)]
  · have h2le : (2 : ℝ) ≤ (blurSampleCount σ size : ℝ) := by exact_mod_cast hge
    linarith

/-- Sample-count bounds for the blur into LOD 1. -/
theorem count_case_1 :
    2 ≤ blurSampleCount (Real.sqrt (sigma 1 * sigma 1 - sigma 0 * sigma 0)) (lodSize 0) ∧
    blurSampleCount (Real.sqrt (sigma 1 * sigma 1 - sigma 0 * sigma 0)) (lodSize 0) ≤ (MAX_SAMPLES : ℤ) ∧
    blurDiagnostic (blurSampleCount (Real.sqrt (sigma 1 * sigma 1 - sigma 0 * sigma 0)) (lodSize 0)) = none ∧
    ((blurSampleCount (Real.sqrt (sigma 1 * sigma 1 - sigma 0 * sigma 0)) (lodSize 0) : ℝ) - 1) ≠ 0 := by
  have hlo := sqrt_lower (sigma 1 * sigma 1 - sigma 0 * sigma 0) 0.005 (by norm_num)
    (by rw [sigma_1, sigma_0]; norm_num)
  have hhi := sqrt_upper (sigma 1 * sigma 1 - sigma 0 * sigma 0) 0.007 (by norm_num)
    (by rw [sigma_1, sigma_0]; norm_num)
  apply blurSampleCount_range <;>
    rw [show lodSize 0 = 256 from by decide] <;> push_cast <;> linarith

/-- Sample-count bounds for the blur into LOD 2. -/
theorem count_case_2 :
    2 ≤ blurSampleCount (Real.sqrt (sigma 2 * sigma 2 - sigma 1 * sigma 1)) (lodSize 1) ∧
    blurSampleCount (Real.sqrt (sigma 2 * sigma 2 - sigma 1 * sigma 1)) (lodSize 1) ≤ (MAX_SAMPLES : ℤ) ∧
    blurDiagnostic (blurSampleCount (Real.sqrt (sigma 2 * sigma 2 - sigma 1 * sigma 1)) (lodSize 1)) = none ∧
    ((blurSampleCount (Real.sqrt (sigma 2 * sigma 2 - sigma 1 * sigma 1)) (lodSize 1) : ℝ) - 1) ≠ 0 := by
  have hlo := sqrt_lower (sigma 2 * sigma 2 - sigma 1 * sigma 1) 0.01 (by norm_num)
    (by rw [sigma_2, sigma_1]; norm_num)
  have hhi := sqrt_upper (sigma 2 * sigma 2 - sigma 1 * sigma 1) 0.015 (by norm_num)
    (by rw [sigma_2, sigma_1]; norm_num)
  apply blurSampleCount_range <;>
    rw [show lodSize 1 = 128 from by decide] <;> push_cast <;> linarith

/-- Sample-count bounds for the blur into LOD 3. -/
theorem count_case_3 :
    2 ≤ blurSampleCount (Real.sqrt (sigma 3 * sigma 3 - sigma 2 * sigma 2)) (lodSize 2) ∧
    blurSampleCount (Real.sqrt (sigma 3 * sigma 3 - sigma 2 * sigma 2)) (lodSize 2) ≤ (MAX_SAMPLES : ℤ) ∧
    blurDiagnostic (blurSampleCount (Real.sqrt (sigma 3 * sigma 3 - sigma 2 * sigma 2)) (lodSize 2)) = none ∧
    ((blurSampleCount (Real.sqrt (sigma 3 * sigma 3 - sigma 2 * sigma 2)) (lodSize 2) : ℝ) - 1) ≠ 0 := by
  have hlo := sqrt_lower (sigma 3 * sigma 3 - sigma 2 * sigma 2) 0.02 (by norm_num)
    (by rw [sigma_3, sigma_2]; norm_num)
  have hhi := sqrt_upper (sigma 3 * sigma 3 - sigma 2 * sigma 2) 0.03 (by norm_num)
    (by rw [sigma_3, sigma_2]; norm_num)
  apply blurSampleCount_range <;>
    rw [show lodSize 2 = 64 from by decide] <;> push_cast <;> linarith

/-- Sample-count bounds for the blur into LOD 4. -/
theorem count_case_4 :
    2 ≤ blurSampleCount (Real.sqrt (sigma 4 * sigma 4 - sigma 3 * sigma 3)) (lodSize 3) ∧
    blurSampleCount (Real.sqrt (sigma 4 * sigma 4 - sigma 3 * sigma 3)) (lodSize 3) ≤ (MAX_SAMPLES : ℤ) ∧
    blurDiagnostic (blurSampleCount (Real.sqrt (sigma 4 * sigma 4 - sigma 3 * sigma 3)) (lodSize 3)) = none ∧
    ((blurSampleCount (Real.sqrt (sigma 4 * sigma 4 - sigma 3 * sigma 3)) (lodSize 3) : ℝ) - 1) ≠ 0 := by
  have hlo := sqrt_lower (sigma 4 * sigma 4 - sigma 3 * sigma 3) 0.04 (by norm_num)
    (by rw [sigma_4, sigma_3]; norm_num)
  have hhi := sqrt_upper (sigma 4 * sigma 4 - sigma 3 * sigma 3) 0.06 (by norm_num)
    (by rw [sigma_4, sigma_3]; norm_num)
  apply blurSampleCount_range <;>
    rw [show lodSize 3 = 32 from by decide] <;> push_cast <;> linarith

/-- Sample-count bounds for the blur into LOD 5. -/
theorem count_case_5 :
    2 ≤ blurSampleCount (Real.sqrt (sigma 5 * sigma 5 - sigma 4 * sigma 4)) (lodSize 4) ∧
    blurSampleCount (Real.sqrt (sigma 5 * sigma 5 - sigma 4 * sigma 4)) (lodSize 4) ≤ (MAX_SAMPLES : ℤ) ∧
    blurDiagnostic (blurSampleCount (Real.sqrt (sigma 5 * sigma 5 - sigma 4 * sigma 4)) (lodSize 4)) = none ∧
    ((blurSampleCount (Real.sqrt (sigma 5 * sigma 5 - sigma 4 * sigma 4)) (lodSize 4) : ℝ) - 1) ≠ 0 := by
  have hlo := sqrt_lower (sigma 5 * sigma 5 - sigma 4 * sigma 4) 0.08 (by norm_num)
    (by rw [sigma_5, sigma_4]; norm_num)
  have hhi := sqrt_upper (sigma 5 * sigma 5 - sigma 4 * sigma 4) 0.12 (by norm_num)
    (by rw [sigma_5, sigma_4]; norm_num)
  apply blurSampleCount_range <;>
    rw [show lodSize 4 = 16 from by decide] <;> push_cast <;> linarith

/-- Sample-count bounds for the blur into LOD 6 (first extra level). -/
theorem count_case_6 :
    2 ≤ blurSampleCount (Real.sqrt (sigma 6 * sigma 6 - sigma 5 * sigma 5)) (lodSize 5) ∧
    blurSampleCount (Real.sqrt (sigma 6 * sigma 6 - sigma 5 * sigma 5)) (lodSize 5) ≤ (MAX_SAMPLES : ℤ) ∧
    blurDiagnostic (blurSampleCount (Real.sqrt (sigma 6 * sigma 6 - sigma 5 * sigma 5)) (lodSize 5)) = none ∧
    ((blurSampleCount (Real.sqrt (sigma 6 * sigma 6 - sigma 5 * sigma 5)) (lodSize 5) : ℝ) - 1) ≠ 0 := by
  have hpilo := Real.pi_gt_3141592
  have hpihi := Real.pi_lt_3141593
  have hlo := sqrt_lower (sigma 6 * sigma 6 - sigma 5 * sigma 5) 0.5 (by norm_num)
    (by rw [sigma_6, sigma_5]; nlinarith)
  have hhi := sqrt_upper (sigma 6 * sigma 6 - sigma 5 * sigma 5) 0.6 (by norm_num)
    (by rw [sigma_6, sigma_5]; nlinarith)
  apply blurSampleCount_range <;>
    rw [show lodSize 5 = 8 from by decide] <;> push_cast <;> linarith

/-- Sample-count bounds for the blur into LOD 7 (second extra level). -/
theorem count_case_7 :
    2 ≤ blurSampleCount (Real.sqrt (sigma 7 * sigma 7 - sigma 6 * sigma 6)) (lodSize 6) ∧
    blurSampleCount (Real.sqrt (sigma 7 * sigma 7 - sigma 6 * sigma 6)) (lodSize 6) ≤ (MAX_SAMPLES : ℤ) ∧
    blurDiagnostic (blurSampleCount (Real.sqrt (sigma 7 * sigma 7 - sigma 6 * sigma 6)) (lodSize 6)) = none ∧
    ((blurSampleCount (Real.sqrt (sigma 7 * sigma 7 - sigma 6 * sigma 6)) (lodSize 6) : ℝ) - 1) ≠ 0 := by
  have hpilo := Real.pi_gt_3141592
  have hpihi := Real.pi_lt_3141593
  have hlo := sqrt_lower (sigma 7 * sigma 7 - sigma 6 * sigma 6) 0.7 (by norm_num)
    (by rw [sigma_7, sigma_6]; nlinarith)
  have hhi := sqrt_upper (sigma 7 * sigma 7 - sigma 6 * sigma 6) 0.8 (by norm_num)
    (by rw [sigma_7, sigma_6]; nlinarith)
  apply blurSampleCount_range <;>
    rw [show lodSize 6 = 8 from by decide] <;> push_cast <;> linarith

/-- Sample-count bounds for the blur into LOD 8 (third extra level). -/
theorem count_case_8 :
    2 ≤ blurSampleCount (Real.sqrt (sigma 8 * sigma 8 - sigma 7 * sigma 7)) (lodSize 7) ∧
    blurSampleCount (Real.sqrt (sigma 8 * sigma 8 - sigma 7 * sigma 7)) (lodSize 7) ≤ (MAX_SAMPLES : ℤ) ∧
    blurDiagnostic (blurSampleCount (Real.sqrt (sigma 8 * sigma 8 - sigma 7 * sigma 7)) (lodSize 7)) = none ∧
    ((blurSampleCount (Real.sqrt (sigma 8 * sigma 8 - sigma 7 * sigma 7)) (lodSize 7) : ℝ) - 1) ≠ 0 := by
  have hpilo := Real.pi_gt_3141592
  have hpihi := Real.pi_lt_3141593
  have hlo := sqrt_lower (sigma 8 * sigma 8 - sigma 7 * sigma 7) 1.2 (by norm_num)
    (by rw [sigma_8, sigma_7]; nlinarith)
  have hhi := sqrt_upper (sigma 8 * sigma 8 - sigma 7 * sigma 7) 1.3 (by norm_num)
    (by rw [sigma_8, sigma_7]; nlinarith)
  apply blurSampleCount_range <;>
    rw [show lodSize 7 = 8 from by decide] <;> push_cast <;> linarith

/-- C10: every internal blur invocation of the pipeline derives a sample
count `n` with `2 ≤ n ≤ MAX_SAMPLES`, so the `(n-1)` divisors are nonzero
and the over-cap diagnostic branch is never taken. -/
theorem pipeline_sample_count_safe (c : BlurCall) (hc : c ∈ applyPMREMCalls) :
    2 ≤ blurSampleCount c.stddev (lodSize c.lodIn) ∧
    blurSampleCount c.stddev (lodSize c.lodIn) ≤ (MAX_SAMPLES : ℤ) ∧
    blurDiagnostic (blurSampleCount c.stddev (lodSize c.lodIn)) = none ∧
    ((blurSampleCount c.stddev (lodSize c.lodIn) : ℝ) - 1) ≠ 0 := by
  simp only [applyPMREMCalls, TOTAL_LODS_eq, List.mem_map, List.mem_range] at hc
  obtain ⟨j, hj, rfl⟩ := hc
  have h7 : j ≤ 7 := by omega
  interval_cases j
  · exact count_case_1
  · exact count_case_2
  · exact count_case_3
  · exact count_case_4
  · exact count_case_5
  · exact count_case_6
  · exact count_case_7
  · exact count_case_8

/-- Witness for C10: the first pipeline blur call satisfies the bounds. -/
theorem pipeline_sample_count_safe_witness :
    (⟨0, 1, Real.sqrt (sigma 1 * sigma 1 - sigma 0 * sigma 0)⟩ : BlurCall) ∈
        applyPMREMCalls ∧
    2 ≤ blurSampleCount (Real.sqrt (sigma 1 * sigma 1 - sigma 0 * sigma 0)) (lodSize 0) ∧
    blurSampleCount (Real.sqrt (sigma 1 * sigma 1 - sigma 0 * sigma 0)) (lodSize 0) ≤ (MAX_SAMPLES : ℤ) := by
  have hmem : (⟨0, 1, Real.sqrt (sigma 1 * sigma 1 - sigma 0 * sigma 0)⟩ : BlurCall) ∈
      applyPMREMCalls := by
    simp only [applyPMREMCalls, TOTAL_LODS_eq, List.mem_map, List.mem_range]
    exact ⟨0, by omega, rfl⟩
  have h := pipeline_sample_count_safe _ hmem
  exact ⟨hmem, h.1, h.2.1⟩

/-- The common Gaussian factor of the weight array: all weight exponents are
`i²` multiples of `9/(2(n-1)²)`, so every entry is a power of this base. -/
def gaussBase (n : ℕ) : ℝ := Real.exp (-(9 / (2 * ((n : ℝ) - 1) ^ 2)))

/-- The sum `Σ_{i<n} exp(-x_i²/2)` of unscaled Gaussian samples, written as
powers of `gaussBase n`. -/
def gaussTotal (n : ℕ) : ℝ := ∑ i in Finset.range n, gaussBase n ^ (i ^ 2)

/-- Two-sided degree-7 Taylor bounds on `exp (-x)` for `x ∈ [0, 1]`,
instantiating the library's factorial-tail estimate. -/
theorem exp_neg_taylor8 (x : ℝ) (h0 : 0 ≤ x) (h1 : x ≤ 1) :
    1 - x + x^2/2 - x^3/6 + x^4/24 - x^5/120 + x^6/720 - x^7/5040 - x^8/35840 ≤
      Real.exp (-x) ∧
    Real.exp (-x) ≤
      1 - x + x^2/2 - x^3/6 + x^4/24 - x^5/120 + x^6/720 - x^7/5040 + x^8/35840 := by
  have habs : |(-x)| ≤ 1 := by rw [abs_neg, abs_of_nonneg h0]; exact h1
  have h := Real.exp_bound habs (n := 8) (by norm_num)
  rw [Finset.sum_range_succ, Finset.sum_range_succ, Finset.sum_range_succ,
    Finset.sum_range_succ, Finset.sum_range_succ, Finset.sum_range_succ,
    Finset.sum_range_succ, Finset.sum_range_succ, Finset.sum_range_zero,
    abs_neg, abs_of_nonneg h0] at h
  norm_num [Nat.factorial] at h
  rw [abs_le] at h
  constructor <;> nlinarith [h.1, h.2]

/-- Decimal bounds on `exp (-1)` derived from the library's nine-digit
bounds on `exp 1`. -/
theorem exp_neg_one_bounds :
    (0.3678794411 : ℝ) ≤ Real.exp (-1) ∧ Real.exp (-1) ≤ 0.3678794412 := by
  have h1 := Real.exp_one_gt_d9
  have h2 := Real.exp_one_lt_d9
  have hpos : (0:ℝ) < Real.exp 1 := Real.exp_pos 1
  rw [Real.exp_neg]
  constructor
  · rw [le_inv_comm₀] <;> nlinarith
  · rw [inv_le_comm₀] <;> nlinarith

/-- Decimal bounds on `sqrt (2π)`, from the six-digit bounds on `π`. -/
theorem sqrt_two_pi_bounds :
    (2.5066279 : ℝ) ≤ Real.sqrt (2 * Real.pi) ∧
      Real.sqrt (2 * Real.pi) ≤ 2.5066285 := by
  have hpilo := Real.pi_gt_3141592
  have hpihi := Real.pi_lt_3141593
  constructor
  · have h2 := Real.sqrt_le_sqrt (show (2.5066279 : ℝ)^2 ≤ 2 * Real.pi by nlinarith)
    rwa [Real.sqrt_sq (by norm_num)] at h2
  · have h2 := Real.sqrt_le_sqrt (show 2 * Real.pi ≤ (2.5066285 : ℝ)^2 by nlinarith)
    rwa [Real.sqrt_sq (by norm_num)] at h2

/-- Each weight entry is `inverseIntegral n` times the `i²`-th power of the
shared Gaussian base. -/
theorem weight_eq_pow (n : ℕ) (hn : 2 ≤ n) (i : ℕ) :
    weight n i = inverseIntegral n * gaussBase n ^ (i ^ 2) := by
  have hge : (2:ℝ) ≤ (n:ℝ) := by exact_mod_cast hn
  have hne : ((n:ℝ) - 1) ≠ 0 := by linarith
  rw [weight, gaussBase]
  congr 1
  rw [← Real.exp_nat_mul]
  congr 1
  rw [standardDeviations]
  push_cast
  field_simp
  ring

/-- The full weight mass rewritten over the shared base: with
`T = gaussTotal n`, it equals `3(2T - 1)/((n-1)·sqrt(2π))`. -/
theorem weightSum_eq (n : ℕ) (hn : 2 ≤ n) :
    weightSum n =
      3 * (2 * gaussTotal n - 1) / (((n : ℝ) - 1) * Real.sqrt (2 * Real.pi)) := by
  have hge : (2:ℝ) ≤ (n:ℝ) := by exact_mod_cast hn
  have hne : ((n:ℝ) - 1) ≠ 0 := by linarith
  have hs : Real.sqrt (2 * Real.pi) ≠ 0 := by
    have := sqrt_two_pi_bounds.1
    linarith
  rw [weightSum, gaussTotal]
  simp only [weight_eq_pow n hn]
  rw [← Finset.mul_sum, inverseIntegral, standardDeviations]
  norm_num
  field_simp
  ring

/-- Lower bracketing of `gaussTotal` by a rational power sum. -/
theorem gaussTotal_lb (n : ℕ) (a : ℝ) (h0 : 0 ≤ a) (ha : a ≤ gaussBase n) :
    ∑ i in Finset.range n, a ^ (i ^ 2) ≤ gaussTotal n := by
  apply Finset.sum_le_sum
  intro i _
  exact pow_le_pow_left h0 ha _

/-- Upper bracketing of `gaussTotal` by a rational power sum. -/
theorem gaussTotal_ub (n : ℕ) (b : ℝ) (hb : gaussBase n ≤ b) :
    gaussTotal n ≤ ∑ i in Finset.range n, b ^ (i ^ 2) := by
  apply Finset.sum_le_sum
  intro i _
  exact pow_le_pow_left (Real.exp_pos _).le hb _

/-- Reduction of a two-sided weight-mass estimate to rational bracketing of
`gaussTotal` together with rational side conditions. -/
theorem weightSum_near (n : ℕ) (hn : 2 ≤ n) (Tlo Thi tol : ℝ)
    (htol0 : 0 ≤ tol) (htol1 : tol ≤ 1)
    (hT1 : Tlo ≤ gaussTotal n) (hT2 : gaussTotal n ≤ Thi)
    (h1 : (1 - tol) * (((n : ℝ) - 1) * 2.5066285) ≤ 3 * (2 * Tlo - 1))
    (h2 : 3 * (2 * Thi - 1) ≤ (1 + tol) * (((n : ℝ) - 1) * 2.5066279)) :
    |weightSum n - 1| ≤ tol := by
  have hs := sqrt_two_pi_bounds
  have hn1 : (1:ℝ) ≤ (n:ℝ) - 1 := by
    have : (2:ℝ) ≤ (n:ℝ) := by exact_mod_cast hn
    linarith
  have hspos : 0 < Real.sqrt (2 * Real.pi) := by linarith [hs.1]
  have hD : 0 < ((n:ℝ) - 1) * Real.sqrt (2 * Real.pi) :=
    mul_pos (by linarith) hspos
  rw [weightSum_eq n hn, abs_le]
  constructor
  · have hA : (1 - tol) * (((n:ℝ) - 1) * Real.sqrt (2 * Real.pi)) ≤
        3 * (2 * gaussTotal n - 1) := by
      have step1 : ((n:ℝ) - 1) * Real.sqrt (2 * Real.pi) ≤ ((n:ℝ) - 1) * 2.5066285 :=
        mul_le_mul_of_nonneg_left hs.2 (by linarith)
      have step2 : (1 - tol) * (((n:ℝ) - 1) * Real.sqrt (2 * Real.pi)) ≤
          (1 - tol) * (((n:ℝ) - 1) * 2.5066285) :=
        mul_le_mul_of_nonneg_left step1 (by linarith)
      linarith
    have h3 : 1 - tol ≤
        3 * (2 * gaussTotal n - 1) / (((n:ℝ) - 1) * Real.sqrt (2 * Real.pi)) := by
      rw [le_div_iff hD]
      exact hA
    linarith
  · have hA : 3 * (2 * gaussTotal n - 1) ≤
        (1 + tol) * (((n:ℝ) - 1) * Real.sqrt (2 * Real.pi)) := by
      have step1 : ((n:ℝ) - 1) * 2.5066279 ≤ ((n:ℝ) - 1) * Real.sqrt (2 * Real.pi) :=
        mul_le_mul_of_nonneg_left hs.1 (by linarith)
      have step2 : (1 + tol) * (((n:ℝ) - 1) * 2.5066279) ≤
          (1 + tol) * (((n:ℝ) - 1) * Real.sqrt (2 * Real.pi)) :=
        mul_le_mul_of_nonneg_left step1 (by linarith)
      linarith
    have h3 : 3 * (2 * gaussTotal n - 1) /
        (((n:ℝ) - 1) * Real.sqrt (2 * Real.pi)) ≤ 1 + tol := by
      rw [div_le_iff hD]
      exact hA
    linarith

/-- Rational weight-mass bracketing at sample count 3. -/
theorem wsum_3 : |weightSum 3 - 1| ≤ 22 / 10000 := by
  have hbase : gaussBase 3 = Real.exp (-(9/8 : ℝ)) := by
    rw [gaussBase]; congr 1; norm_num
  have hsplit : Real.exp (-(9/8 : ℝ)) = Real.exp (-1) * Real.exp (-(1/8 : ℝ)) := by
    rw [← Real.exp_add]; norm_num
  have he1 := exp_neg_one_bounds
  have he8 := exp_neg_taylor8 (1/8) (by norm_num) (by norm_num)
  have h8lo : (0.882496902581 : ℝ) ≤ Real.exp (-(1/8 : ℝ)) := le_trans (by norm_num) he8.1
  have h8hi : Real.exp (-(1/8 : ℝ)) ≤ 0.882496902585 := le_trans he8.2 (by norm_num)
  have hglo : (0.324652467293 : ℝ) ≤ gaussBase 3 := by
    rw [hbase, hsplit]
    calc (0.324652467293 : ℝ) ≤ 0.3678794411 * 0.882496902581 := by norm_num
      _ ≤ Real.exp (-1) * Real.exp (-(1/8 : ℝ)) :=
          mul_le_mul he1.1 h8lo (by norm_num) (Real.exp_pos _).le
  have hghi : gaussBase 3 ≤ 0.324652467384 := by
    rw [hbase, hsplit]
    calc Real.exp (-1) * Real.exp (-(1/8 : ℝ)) ≤ 0.3678794412 * 0.882496902585 :=
          mul_le_mul he1.2 h8hi (Real.exp_pos _).le (by norm_num)
      _ ≤ 0.324652467384 := by norm_num
  have hT1 : (1.3357614638 : ℝ) ≤ gaussTotal 3 := by
    refine le_trans ?_ (gaussTotal_lb 3 0.324652467293 (by norm_num) hglo)
    simp only [Finset.sum_range_succ, Finset.sum_range_zero]
    norm_num
  have hT2 : gaussTotal 3 ≤ 1.3357614640 := by
    refine le_trans (gaussTotal_ub 3 0.324652467384 hghi) ?_
    simp only [Finset.sum_range_succ, Finset.sum_range_zero]
    norm_num
  exact weightSum_near 3 (by norm_num) 1.3357614638 1.3357614640 (22/10000) (by norm_num)
    (by norm_num) hT1 hT2 (by norm_num) (by norm_num)

/-- Rational weight-mass bracketing at sample count 4. -/
theorem wsum_4 : |weightSum 4 - 1| ≤ 22 / 10000 := by
  have hbase : gaussBase 4 = Real.exp (-(1/2 : ℝ)) := by
    rw [gaussBase]; congr 1; norm_num
  have hg := exp_neg_taylor8 (1/2) (by norm_num) (by norm_num)
  have hglo : (0.606530458964 : ℝ) ≤ gaussBase 4 := by
    rw [hbase]; exact le_trans (by norm_num) hg.1
  have hghi : gaussBase 4 ≤ 0.606530676948 := by
    rw [hbase]; exact le_trans hg.2 (by norm_num)
  have hT1 : (1.7529745264 : ℝ) ≤ gaussTotal 4 := by
    refine le_trans ?_ (gaussTotal_lb 4 0.606530458964 (by norm_num) hglo)
    simp only [Finset.sum_range_succ, Finset.sum_range_zero]
    norm_num
  have hT2 : gaussTotal 4 ≤ 1.7529749750 := by
    refine le_trans (gaussTotal_ub 4 0.606530676948 hghi) ?_
    simp only [Finset.sum_range_succ, Finset.sum_range_zero]
    norm_num
  exact weightSum_near 4 (by norm_num) 1.7529745264 1.7529749750 (22/10000) (by norm_num)
    (by norm_num) hT1 hT2 (by norm_num) (by norm_num)

/-- Rational weight-mass bracketing at sample count 5. -/
theorem wsum_5 : |weightSum 5 - 1| ≤ 22 / 10000 := by
  have hbase : gaussBase 5 = Real.exp (-(9/32 : ℝ)) := by
    rw [gaussBase]; congr 1; norm_num
  have hg := exp_neg_taylor8 (9/32) (by norm_num) (by norm_num)
  have hglo : (0.754839599955 : ℝ) ≤ gaussBase 5 := by
    rw [hbase]; exact le_trans (by norm_num) hg.1
  have hghi : gaussBase 5 ≤ 0.754839602140 := by
    rw [hbase]; exact le_trans hg.2 (by norm_num)
  have hT1 : (2.1701605666 : ℝ) ≤ gaussTotal 5 := by
    refine le_trans ?_ (gaussTotal_lb 5 0.754839599955 (by norm_num) hglo)
    simp only [Finset.sum_range_succ, Finset.sum_range_zero]
    norm_num
  have hT2 : gaussTotal 5 ≤ 2.1701605752 := by
    refine le_trans (gaussTotal_ub 5 0.754839602140 hghi) ?_
    simp only [Finset.sum_range_succ, Finset.sum_range_zero]
    norm_num
  exact weightSum_near 5 (by norm_num) 2.1701605666 2.1701605752 (22/10000) (by norm_num)
    (by norm_num) hT1 hT2 (by norm_num) (by norm_num)

/-- Rational weight-mass bracketing at sample count 6. -/
theorem wsum_6 : |weightSum 6 - 1| ≤ 22 / 10000 := by
  have hbase : gaussBase 6 = Real.exp (-(9/50 : ℝ)) := by
    rw [gaussBase]; congr 1; norm_num
  have hg := exp_neg_taylor8 (9/50) (by norm_num) (by norm_num)
  have hglo : (0.835270211353 : ℝ) ≤ gaussBase 6 := by
    rw [hbase]; exact le_trans (by norm_num) hg.1
  have hghi : gaussBase 6 ≤ 0.835270211416 := by
    rw [hbase]; exact le_trans hg.2 (by norm_num)
  have hT1 : (2.5871649254 : ℝ) ≤ gaussTotal 6 := by
    refine le_trans ?_ (gaussTotal_lb 6 0.835270211353 (by norm_num) hglo)
    simp only [Finset.sum_range_succ, Finset.sum_range_zero]
    norm_num
  have hT2 : gaussTotal 6 ≤ 2.5871649259 := by
    refine le_trans (gaussTotal_ub 6 0.835270211416 hghi) ?_
    simp only [Finset.sum_range_succ, Finset.sum_range_zero]
    norm_num
  exact weightSum_near 6 (by norm_num) 2.5871649254 2.5871649259 (22/10000) (by norm_num)
    (by norm_num) hT1 hT2 (by norm_num) (by norm_num)

/-- Rational weight-mass bracketing at sample count 7. -/
theorem wsum_7 : |weightSum 7 - 1| ≤ 22 / 10000 := by
  have hbase : gaussBase 7 = Real.exp (-(1/8 : ℝ)) := by
    rw [gaussBase]; congr 1; norm_num
  have hg := exp_neg_taylor8 (1/8) (by norm_num) (by norm_num)
  have hglo : (0.882496902581 : ℝ) ≤ gaussBase 7 := by
    rw [hbase]; exact le_trans (by norm_num) hg.1
  have hghi : gaussBase 7 ≤ 0.882496902585 := by
    rw [hbase]; exact le_trans hg.2 (by norm_num)
  have hT1 : (3.0040612430 : ℝ) ≤ gaussTotal 7 := by
    refine le_trans ?_ (gaussTotal_lb 7 0.882496902581 (by norm_num) hglo)
    simp only [Finset.sum_range_succ, Finset.sum_range_zero]
    norm_num
  have hT2 : gaussTotal 7 ≤ 3.0040612431 := by
    refine le_trans (gaussTotal_ub 7 0.882496902585 hghi) ?_
    simp only [Finset.sum_range_succ, Finset.sum_range_zero]
    norm_num
  exact weightSum_near 7 (by norm_num) 3.0040612430 3.0040612431 (22/10000) (by norm_num)
    (by norm_num) hT1 hT2 (by norm_num) (by norm_num)

/-- Rational weight-mass bracketing at sample count 8. -/
theorem wsum_8 : |weightSum 8 - 1| ≤ 22 / 10000 := by
  have hbase : gaussBase 8 = Real.exp (-(9/98 : ℝ)) := by
    rw [gaussBase]; congr 1; norm_num
  have hg := exp_neg_taylor8 (9/98) (by norm_num) (by norm_num)
  have hglo : (0.912254076828 : ℝ) ≤ gaussBase 8 := by
    rw [hbase]; exact le_trans (by norm_num) hg.1
  have hghi : gaussBase 8 ≤ 0.912254076829 := by
    rw [hbase]; exact le_trans hg.2 (by norm_num)
  have hT1 : (3.4208903759 : ℝ) ≤ gaussTotal 8 := by
    refine le_trans ?_ (gaussTotal_lb 8 0.912254076828 (by norm_num) hglo)
    simp only [Finset.sum_range_succ, Finset.sum_range_zero]
    norm_num
  have hT2 : gaussTotal 8 ≤ 3.4208903761 := by
    refine le_trans (gaussTotal_ub 8 0.912254076829 hghi) ?_
    simp only [Finset.sum_range_succ, Finset.sum_range_zero]
    norm_num
  exact weightSum_near 8 (by norm_num) 3.4208903759 3.4208903761 (22/10000) (by norm_num)
    (by norm_num) hT1 hT2 (by norm_num) (by norm_num)

/-- Rational weight-mass bracketing at sample count 9. -/
theorem wsum_9 : |weightSum 9 - 1| ≤ 22 / 10000 := by
  have hbase : gaussBase 9 = Real.exp (-(9/128 : ℝ)) := by
    rw [gaussBase]; congr 1; norm_num
  have hg := exp_neg_taylor8 (9/128) (by norm_num) (by norm_num)
  have hglo : (0.932102492359 : ℝ) ≤ gaussBase 9 := by
    rw [hbase]; exact le_trans (by norm_num) hg.1
  have hghi : gaussBase 9 ≤ 0.932102492360 := by
    rw [hbase]; exact le_trans hg.2 (by norm_num)
  have hT1 : (3.8376754752 : ℝ) ≤ gaussTotal 9 := by
    refine le_trans ?_ (gaussTotal_lb 9 0.932102492359 (by norm_num) hglo)
    simp only [Finset.sum_range_succ, Finset.sum_range_zero]
    norm_num
  have hT2 : gaussTotal 9 ≤ 3.8376754753 := by
    refine le_trans (gaussTotal_ub 9 0.932102492360 hghi) ?_
    simp only [Finset.sum_range_succ, Finset.sum_range_zero]
    norm_num
  exact weightSum_near 9 (by norm_num) 3.8376754752 3.8376754753 (22/10000) (by norm_num)
    (by norm_num) hT1 hT2 (by norm_num) (by norm_num)

/-- Rational weight-mass bracketing at sample count 10. -/
theorem wsum_10 : |weightSum 10 - 1| ≤ 22 / 10000 := by
  have hbase : gaussBase 10 = Real.exp (-(1/18 : ℝ)) := by
    rw [gaussBase]; congr 1; norm_num
  have hg := exp_neg_taylor8 (1/18) (by norm_num) (by norm_num)
  have hglo : (0.945959468906 : ℝ) ≤ gaussBase 10 := by
    rw [hbase]; exact le_trans (by norm_num) hg.1
  have hghi : gaussBase 10 ≤ 0.945959468907 := by
    rw [hbase]; exact le_trans hg.2 (by norm_num)
  have hT1 : (4.2544303399 : ℝ) ≤ gaussTotal 10 := by
    refine le_trans ?_ (gaussTotal_lb 10 0.945959468906 (by norm_num) hglo)
    simp only [Finset.sum_range_succ, Finset.sum_range_zero]
    norm_num
  have hT2 : gaussTotal 10 ≤ 4.2544303401 := by
    refine le_trans (gaussTotal_ub 10 0.945959468907 hghi) ?_
    simp only [Finset.sum_range_succ, Finset.sum_range_zero]
    norm_num
  exact weightSum_near 10 (by norm_num) 4.2544303399 4.2544303401 (22/10000) (by norm_num)
    (by norm_num) hT1 hT2 (by norm_num) (by norm_num)

/-- Rational weight-mass bracketing at sample count 11. -/
theorem wsum_11 : |weightSum 11 - 1| ≤ 22 / 10000 := by
  have hbase : gaussBase 11 = Real.exp (-(9/200 : ℝ)) := by
    rw [gaussBase]; congr 1; norm_num
  have hg := exp_neg_taylor8 (9/200) (by norm_num) (by norm_num)
  have hglo : (0.955997481833 : ℝ) ≤ gaussBase 11 := by
    rw [hbase]; exact le_trans (by norm_num) hg.1
  have hghi : gaussBase 11 ≤ 0.955997481834 := by
    rw [hbase]; exact le_trans hg.2 (by norm_num)
  have hT1 : (4.6711636210 : ℝ) ≤ gaussTotal 11 := by
    refine le_trans ?_ (gaussTotal_lb 11 0.955997481833 (by norm_num) hglo)
    simp only [Finset.sum_range_succ, Finset.sum_range_zero]
    norm_num
  have hT2 : gaussTotal 11 ≤ 4.6711636211 := by
    refine le_trans (gaussTotal_ub 11 0.955997481834 hghi) ?_
    simp only [Finset.sum_range_succ, Finset.sum_range_zero]
    norm_num
  exact weightSum_near 11 (by norm_num) 4.6711636210 4.6711636211 (22/10000) (by norm_num)
    (by norm_num) hT1 hT2 (by norm_num) (by norm_num)

/-- Rational weight-mass bracketing at sample count 12. -/
theorem wsum_12 : |weightSum 12 - 1| ≤ 22 / 10000 := by
  have hbase : gaussBase 12 = Real.exp (-(9/242 : ℝ)) := by
    rw [gaussBase]; congr 1; norm_num
  have hg := exp_neg_taylor8 (9/242) (by norm_num) (by norm_num)
  have hglo : (0.963492974649 : ℝ) ≤ gaussBase 12 := by
    rw [hbase]; exact le_trans (by norm_num) hg.1
  have hghi : gaussBase 12 ≤ 0.963492974650 := by
    rw [hbase]; exact le_trans hg.2 (by norm_num)
  have hT1 : (5.0878809874 : ℝ) ≤ gaussTotal 12 := by
    refine le_trans ?_ (gaussTotal_lb 12 0.963492974649 (by norm_num) hglo)
    simp only [Finset.sum_range_succ, Finset.sum_range_zero]
    norm_num
  have hT2 : gaussTotal 12 ≤ 5.0878809876 := by
    refine le_trans (gaussTotal_ub 12 0.963492974650 hghi) ?_
    simp only [Finset.sum_range_succ, Finset.sum_range_zero]
    norm_num
  exact weightSum_near 12 (by norm_num) 5.0878809874 5.0878809876 (22/10000) (by norm_num)
    (by norm_num) hT1 hT2 (by norm_num) (by norm_num)

/-- Rational weight-mass bracketing at sample count 13. -/
theorem wsum_13 : |weightSum 13 - 1| ≤ 22 / 10000 := by
  have hbase : gaussBase 13 = Real.exp (-(1/32 : ℝ)) := by
    rw [gaussBase]; congr 1; norm_num
  have hg := exp_neg_taylor8 (1/32) (by norm_num) (by norm_num)
  have hglo : (0.969233234476 : ℝ) ≤ gaussBase 13 := by
    rw [hbase]; exact le_trans (by norm_num) hg.1
  have hghi : gaussBase 13 ≤ 0.969233234477 := by
    rw [hbase]; exact le_trans hg.2 (by norm_num)
  have hT1 : (5.5045862976 : ℝ) ≤ gaussTotal 13 := by
    refine le_trans ?_ (gaussTotal_lb 13 0.969233234476 (by norm_num) hglo)
    simp only [Finset.sum_range_succ, Finset.sum_range_zero]
    norm_num
  have hT2 : gaussTotal 13 ≤ 5.5045862978 := by
    refine le_trans (gaussTotal_ub 13 0.969233234477 hghi) ?_
    simp only [Finset.sum_range_succ, Finset.sum_range_zero]
    norm_num
  exact weightSum_near 13 (by norm_num) 5.5045862976 5.5045862978 (22/10000) (by norm_num)
    (by norm_num) hT1 hT2 (by norm_num) (by norm_num)

/-- Rational weight-mass bracketing at sample count 14. -/
theorem wsum_14 : |weightSum 14 - 1| ≤ 22 / 10000 := by
  have hbase : gaussBase 14 = Real.exp (-(9/338 : ℝ)) := by
    rw [gaussBase]; congr 1; norm_num
  have hg := exp_neg_taylor8 (9/338) (by norm_num) (by norm_num)
  have hglo : (0.973724159804 : ℝ) ≤ gaussBase 14 := by
    rw [hbase]; exact le_trans (by norm_num) hg.1
  have hghi : gaussBase 14 ≤ 0.973724159805 := by
    rw [hbase]; exact le_trans hg.2 (by norm_num)
  have hT1 : (5.9212822637 : ℝ) ≤ gaussTotal 14 := by
    refine le_trans ?_ (gaussTotal_lb 14 0.973724159804 (by norm_num) hglo)
    simp only [Finset.sum_range_succ, Finset.sum_range_zero]
    norm_num
  have hT2 : gaussTotal 14 ≤ 5.9212822639 := by
    refine le_trans (gaussTotal_ub 14 0.973724159805 hghi) ?_
    simp only [Finset.sum_range_succ, Finset.sum_range_zero]
    norm_num
  exact weightSum_near 14 (by norm_num) 5.9212822637 5.9212822639 (22/10000) (by norm_num)
    (by norm_num) hT1 hT2 (by norm_num) (by norm_num)

/-- Rational weight-mass bracketing at sample count 15. -/
theorem wsum_15 : |weightSum 15 - 1| ≤ 22 / 10000 := by
  have hbase : gaussBase 15 = Real.exp (-(9/392 : ℝ)) := by
    rw [gaussBase]; congr 1; norm_num
  have hg := exp_neg_taylor8 (9/392) (by norm_num) (by norm_num)
  have hglo : (0.977302372851 : ℝ) ≤ gaussBase 15 := by
    rw [hbase]; exact le_trans (by norm_num) hg.1
  have hghi : gaussBase 15 ≤ 0.977302372852 := by
    rw [hbase]; exact le_trans hg.2 (by norm_num)
  have hT1 : (6.3379708451 : ℝ) ≤ gaussTotal 15 := by
    refine le_trans ?_ (gaussTotal_lb 15 0.977302372851 (by norm_num) hglo)
    simp only [Finset.sum_range_succ, Finset.sum_range_zero]
    norm_num
  have hT2 : gaussTotal 15 ≤ 6.3379708453 := by
    refine le_trans (gaussTotal_ub 15 0.977302372852 hghi) ?_
    simp only [Finset.sum_range_succ, Finset.sum_range_zero]
    norm_num
  exact weightSum_near 15 (by norm_num) 6.3379708451 6.3379708453 (22/10000) (by norm_num)
    (by norm_num) hT1 hT2 (by norm_num) (by norm_num)

/-- Rational weight-mass bracketing at sample count 16. -/
theorem wsum_16 : |weightSum 16 - 1| ≤ 22 / 10000 := by
  have hbase : gaussBase 16 = Real.exp (-(1/50 : ℝ)) := by
    rw [gaussBase]; congr 1; norm_num
  have hg := exp_neg_taylor8 (1/50) (by norm_num) (by norm_num)
  have hglo : (0.980198673306 : ℝ) ≤ gaussBase 16 := by
    rw [hbase]; exact le_trans (by norm_num) hg.1
  have hghi : gaussBase 16 ≤ 0.980198673307 := by
    rw [hbase]; exact le_trans hg.2 (by norm_num)
  have hT1 : (6.7546534916 : ℝ) ≤ gaussTotal 16 := by
    refine le_trans ?_ (gaussTotal_lb 16 0.980198673306 (by norm_num) hglo)
    simp only [Finset.sum_range_succ, Finset.sum_range_zero]
    norm_num
  have hT2 : gaussTotal 16 ≤ 6.7546534919 := by
    refine le_trans (gaussTotal_ub 16 0.980198673307 hghi) ?_
    simp only [Finset.sum_range_succ, Finset.sum_range_zero]
    norm_num
  exact weightSum_near 16 (by norm_num) 6.7546534916 6.7546534919 (22/10000) (by norm_num)
    (by norm_num) hT1 hT2 (by norm_num) (by norm_num)

/-- Rational weight-mass bracketing at sample count 17. -/
theorem wsum_17 : |weightSum 17 - 1| ≤ 22 / 10000 := by
  have hbase : gaussBase 17 = Real.exp (-(9/512 : ℝ)) := by
    rw [gaussBase]; congr 1; norm_num
  have hg := exp_neg_taylor8 (9/512) (by norm_num) (by norm_num)
  have hglo : (0.982575468957 : ℝ) ≤ gaussBase 17 := by
    rw [hbase]; exact le_trans (by norm_num) hg.1
  have hghi : gaussBase 17 ≤ 0.982575468958 := by
    rw [hbase]; exact le_trans hg.2 (by norm_num)
  have hT1 : (7.1713312983 : ℝ) ≤ gaussTotal 17 := by
    refine le_trans ?_ (gaussTotal_lb 17 0.982575468957 (by norm_num) hglo)
    simp only [Finset.sum_range_succ, Finset.sum_range_zero]
    norm_num
  have hT2 : gaussTotal 17 ≤ 7.1713312986 := by
    refine le_trans (gaussTotal_ub 17 0.982575468958 hghi) ?_
    simp only [Finset.sum_range_succ, Finset.sum_range_zero]
    norm_num
  exact weightSum_near 17 (by norm_num) 7.1713312983 7.1713312986 (22/10000) (by norm_num)
    (by norm_num) hT1 hT2 (by norm_num) (by norm_num)

/-- Rational weight-mass bracketing at sample count 18. -/
theorem wsum_18 : |weightSum 18 - 1| ≤ 22 / 10000 := by
  have hbase : gaussBase 18 = Real.exp (-(9/578 : ℝ)) := by
    rw [gaussBase]; congr 1; norm_num
  have hg := exp_neg_taylor8 (9/578) (by norm_num) (by norm_num)
  have hglo : (0.984549665976 : ℝ) ≤ gaussBase 18 := by
    rw [hbase]; exact le_trans (by norm_num) hg.1
  have hghi : gaussBase 18 ≤ 0.984549665977 := by
    rw [hbase]; exact le_trans hg.2 (by norm_num)
  have hT1 : (7.5880051073 : ℝ) ≤ gaussTotal 18 := by
    refine le_trans ?_ (gaussTotal_lb 18 0.984549665976 (by norm_num) hglo)
    simp only [Finset.sum_range_succ, Finset.sum_range_zero]
    norm_num
  have hT2 : gaussTotal 18 ≤ 7.5880051076 := by
    refine le_trans (gaussTotal_ub 18 0.984549665977 hghi) ?_
    simp only [Finset.sum_range_succ, Finset.sum_range_zero]
    norm_num
  exact weightSum_near 18 (by norm_num) 7.5880051073 7.5880051076 (22/10000) (by norm_num)
    (by norm_num) hT1 hT2 (by norm_num) (by norm_num)

/-- Rational weight-mass bracketing at sample count 19. -/
theorem wsum_19 : |weightSum 19 - 1| ≤ 22 / 10000 := by
  have hbase : gaussBase 19 = Real.exp (-(1/72 : ℝ)) := by
    rw [gaussBase]; congr 1; norm_num
  have hg := exp_neg_taylor8 (1/72) (by norm_num) (by norm_num)
  have hglo : (0.986207116743 : ℝ) ≤ gaussBase 19 := by
    rw [hbase]; exact le_trans (by norm_num) hg.1
  have hghi : gaussBase 19 ≤ 0.986207116744 := by
    rw [hbase]; exact le_trans hg.2 (by norm_num)
  have hT1 : (8.0046755765 : ℝ) ≤ gaussTotal 19 := by
    refine le_trans ?_ (gaussTotal_lb 19 0.986207116743 (by norm_num) hglo)
    simp only [Finset.sum_range_succ, Finset.sum_range_zero]
    norm_num
  have hT2 : gaussTotal 19 ≤ 8.0046755768 := by
    refine le_trans (gaussTotal_ub 19 0.986207116744 hghi) ?_
    simp only [Finset.sum_range_succ, Finset.sum_range_zero]
    norm_num
  exact weightSum_near 19 (by norm_num) 8.0046755765 8.0046755768 (22/10000) (by norm_num)
    (by norm_num) hT1 hT2 (by norm_num) (by norm_num)

/-- Rational weight-mass bracketing at sample count 20. -/
theorem wsum_20 : |weightSum 20 - 1| ≤ 22 / 10000 := by
  have hbase : gaussBase 20 = Real.exp (-(9/722 : ℝ)) := by
    rw [gaussBase]; congr 1; norm_num
  have hg := exp_neg_taylor8 (9/722) (by norm_num) (by norm_num)
  have hglo : (0.987611996993 : ℝ) ≤ gaussBase 20 := by
    rw [hbase]; exact le_trans (by norm_num) hg.1
  have hghi : gaussBase 20 ≤ 0.987611996994 := by
    rw [hbase]; exact le_trans hg.2 (by norm_num)
  have hT1 : (8.4213432278 : ℝ) ≤ gaussTotal 20 := by
    refine le_trans ?_ (gaussTotal_lb 20 0.987611996993 (by norm_num) hglo)
    simp only [Finset.sum_range_succ, Finset.sum_range_zero]
    norm_num
  have hT2 : gaussTotal 20 ≤ 8.4213432282 := by
    refine le_trans (gaussTotal_ub 20 0.987611996994 hghi) ?_
    simp only [Finset.sum_range_succ, Finset.sum_range_zero]
    norm_num
  exact weightSum_near 20 (by norm_num) 8.4213432278 8.4213432282 (22/10000) (by norm_num)
    (by norm_num) hT1 hT2 (by norm_num) (by norm_num)


/-- C6 (amended): for every sample count `n` with `3 ≤ n ≤ MAX_SAMPLES`,
the Gaussian weight array summed over both symmetric directions with the
center counted once lies within `2.2e-3` of `1.0` (the `1e-3` tolerance of
the original claim holds only for `n ≤ 6`, and the claim fails at
`n = 2`). -/
theorem weightSum_near_one (n : ℕ) (h3 : 3 ≤ n) (h20 : n ≤ MAX_SAMPLES) :
    |weightSum n - 1| ≤ 22 / 10000 := by
  simp only [MAX_SAMPLES] at h20
  interval_cases n
  exacts [wsum_3, wsum_4, wsum_5, wsum_6, wsum_7, wsum_8, wsum_9, wsum_10,
    wsum_11, wsum_12, wsum_13, wsum_14, wsum_15, wsum_16, wsum_17, wsum_18,
    wsum_19, wsum_20]

/-- Witness for the amended C6: the pipeline-derived count `n = 4`. -/
theorem weightSum_near_one_witness :
    3 ≤ 4 ∧ 4 ≤ MAX_SAMPLES ∧ |weightSum 4 - 1| ≤ 22 / 10000 :=
  ⟨by norm_num, by decide, weightSum_near_one 4 (by norm_num) (by decide)⟩

/-- Counterexample to C6 as stated: at the admissible sample count `n = 2`
the summed weight mass exceeds `1` by far more than `1e-3` (it is about
`1.22`), refuting the claimed universal `1e-3` tolerance. -/
theorem weightSum_two_overshoots : 2 ≤ 2 ∧ ¬(|weightSum 2 - 1| ≤ 1 / 1000) := by
  refine ⟨le_refl 2, ?_⟩
  rw [not_le]
  have hs := sqrt_two_pi_bounds
  have hspos : 0 < Real.sqrt (2 * Real.pi) := by linarith [hs.1]
  have hT : (1 : ℝ) ≤ gaussTotal 2 := by
    rw [gaussTotal]
    simp only [Finset.sum_range_succ, Finset.sum_range_zero]
    have hb := (Real.exp_pos (-(9 / (2 * (((2:ℕ):ℝ) - 1) ^ 2)))).le
    rw [show gaussBase 2 = Real.exp (-(9 / (2 * (((2:ℕ):ℝ) - 1) ^ 2))) from rfl]
    norm_num
    linarith
  have heq := weightSum_eq 2 (by norm_num)
  have hcast : ((2:ℕ):ℝ) - 1 = 1 := by norm_num
  rw [heq, hcast, one_mul]
  have hgt : (1.001 : ℝ) < 3 * (2 * gaussTotal 2 - 1) / Real.sqrt (2 * Real.pi) := by
    rw [lt_div_iff hspos]
    have : (1.001 : ℝ) * Real.sqrt (2 * Real.pi) ≤ 1.001 * 2.5066285 := by
      nlinarith [hs.2]
    nlinarith
  calc (1 : ℝ) / 1000 <
      3 * (2 * gaussTotal 2 - 1) / Real.sqrt (2 * Real.pi) - 1 := by linarith
    _ ≤ |3 * (2 * gaussTotal 2 - 1) / Real.sqrt (2 * Real.pi) - 1| := le_abs_self _

/-- C7 (amended): when the derived sample count exceeds `MAX_SAMPLES`, the
shader loop clamps the number of samples actually used to exactly
`MAX_SAMPLES`, the diagnostic identifying the requested and permitted
counts is emitted, and the call still totally produces its
`MAX_SAMPLES`-entry weight array (it never fails). -/
theorem oversized_request_clamped (samples : ℕ) (h : MAX_SAMPLES < samples) :
    (shaderSampleIndices samples).card = MAX_SAMPLES ∧
    blurDiagnostic (samples : ℤ) = some ((samples : ℤ), (MAX_SAMPLES : ℤ)) ∧
    (weightsList samples).length = MAX_SAMPLES := by
  refine ⟨?_, ?_, by simp [weightsList]⟩
  · rw [shaderSampleIndices, Finset.filter_true_of_mem, Finset.card_range]
    intro i hi
    rw [Finset.mem_range] at hi
    omega
  · rw [blurDiagnostic, if_pos (by exact_mod_cast h)]

/-- Witness for the amended C7: a request for 100 samples. -/
theorem oversized_request_clamped_witness :
    MAX_SAMPLES < 100 ∧ (shaderSampleIndices 100).card = MAX_SAMPLES ∧
    blurDiagnostic (100 : ℤ) = some ((100 : ℤ), (MAX_SAMPLES : ℤ)) :=
  ⟨by decide, (oversized_request_clamped 100 (by decide)).1,
    by
      have h := (oversized_request_clamped 100 (by decide)).2.1
      exact_mod_cast h⟩

/-- Counterexample to C7 as stated: the blur request with standard
deviation `25π/384` over input size 256 derives the over-cap sample count
`n = 100`, and the weight set summed over the samples actually used is far
from normalized: it falls short of `1.0` by more than `0.5`, not within any
reasonable tolerance. -/
theorem oversized_request_not_normalized :
    blurSampleCount (25 * Real.pi / 384) 256 = 100 ∧
    (MAX_SAMPLES : ℤ) < 100 ∧
    ¬(|usedWeightSum 100 - 1| ≤ 1 / 1000) := by
  refine ⟨?_, by decide, ?_⟩
  · rw [blurSampleCount, standardDeviations]
    rw [show (3 : ℝ) * (25 * Real.pi / 384) * ((256:ℕ):ℝ) * 2 / Real.pi =
        100 from by
      push_cast
      field_simp
      ring]
    rw [show (100 : ℝ) = ((100 : ℤ) : ℝ) from by norm_num, Int.ceil_intCast]
  · rw [not_le]
    have hs := sqrt_two_pi_bounds
    have hspos : 0 < Real.sqrt (2 * Real.pi) := by linarith [hs.1]
    have hidx : shaderSampleIndices 100 = Finset.range MAX_SAMPLES := by
      rw [shaderSampleIndices, Finset.filter_true_of_mem]
      intro i hi
      rw [Finset.mem_range] at hi
      simp only [MAX_SAMPLES] at hi
      omega
    have hcast : ((100:ℕ):ℝ) - 1 = 99 := by norm_num
    have hwb : ∀ i : ℕ, weight 100 i ≤ 3 / (99 * 2.5066279) := by
      intro i
      rw [weight, inverseIntegral, standardDeviations, hcast]
      have hexp : Real.exp (-(3 * (i:ℝ) / 99) * (3 * (i:ℝ) / 99) / 2) ≤ 1 := by
        rw [show (1:ℝ) = Real.exp 0 from (Real.exp_zero).symm]
        apply Real.exp_le_exp.mpr
        nlinarith [mul_self_nonneg (3 * (i:ℝ) / 99)]
      have hinv : (0:ℝ) ≤ 3 / (99 * Real.sqrt (2 * Real.pi)) := by positivity
      calc 3 / (99 * Real.sqrt (2 * Real.pi)) *
            Real.exp (-(3 * (i:ℝ) / 99) * (3 * (i:ℝ) / 99) / 2) ≤
          3 / (99 * Real.sqrt (2 * Real.pi)) * 1 :=
            mul_le_mul_of_nonneg_left hexp hinv
        _ = 3 / (99 * Real.sqrt (2 * Real.pi)) := mul_one _
        _ ≤ 3 / (99 * 2.5066279) := by
            apply div_le_div_of_nonneg_left (by norm_num) (by norm_num) ?_
            nlinarith [hs.1]
    have hw0 : 0 ≤ weight 100 0 := by
      rw [weight, inverseIntegral, standardDeviations, hcast]
      apply mul_nonneg _ (Real.exp_pos _).le
      positivity
    have hsum : ∑ i in Finset.range MAX_SAMPLES, weight 100 i ≤
        20 * (3 / (99 * 2.5066279)) := by
      calc ∑ i in Finset.range MAX_SAMPLES, weight 100 i ≤
          ∑ _i in Finset.range MAX_SAMPLES, 3 / (99 * 2.5066279) :=
            Finset.sum_le_sum fun i _ => hwb i
        _ = 20 * (3 / (99 * 2.5066279)) := by
            rw [Finset.sum_const, Finset.card_range]
            simp only [MAX_SAMPLES]
            ring
    have hS : usedWeightSum 100 ≤ 0.49 := by
      rw [usedWeightSum, hidx]
      have : (20 : ℝ) * (3 / (99 * 2.5066279)) ≤ 0.242 := by norm_num
      linarith
    calc (1:ℝ) / 1000 < 1 - usedWeightSum 100 := by linarith
      _ ≤ |1 - usedWeightSum 100| := le_abs_self _
      _ = |usedWeightSum 100 - 1| := abs_sub_comm _ _

end PMREM
